import Mathlib

/- Shallow embedding of the research-chain canister
   (src/src/dfinity_js_backend/src/index.ts, both concatenated variants,
   and the points/reputation variant in the unnamed source file). -/

namespace ResearchChain

/- StableBTreeMap is embedded as an association list keyed by strings:
   `get`, `insert` (replace-or-append), `values`. -/
abbrev Store (α : Type) : Type := List (String × α)

def Store.get {α : Type} (s : Store α) (k : String) : Option α :=
  match s with
  | [] => none
  | e :: rest => if e.1 = k then some e.2 else Store.get rest k

def Store.insert {α : Type} (s : Store α) (k : String) (v : α) : Store α :=
  match s with
  | [] => [(k, v)]
  | e :: rest => if e.1 = k then (k, v) :: rest else e :: Store.insert rest k v

def Store.values {α : Type} (s : Store α) : List α :=
  s.map Prod.snd

/- The Message variant and Result type of the canister interface. -/
inductive Message where
  | Success : String → Message
  | Error : String → Message
  | NotFound : String → Message
  | InvalidPayload : String → Message
deriving DecidableEq, Repr

inductive Result (α : Type) where
  | Ok : α → Result α
  | Err : Message → Result α
deriving DecidableEq, Repr

abbrev Res (α : Type) := Result α

/- JavaScript String.prototype.trim and toLowerCase, embedded structurally over the
   character sequence so that they are kernel-reducible. -/
def trimList (l : List Char) : List Char :=
  ((l.dropWhile Char.isWhitespace).reverse.dropWhile Char.isWhitespace).reverse

def jsTrim (s : String) : String :=
  String.mk (trimList s.toList)

def jsToLower (s : String) : String :=
  String.mk (s.toList.map Char.toLower)

/- Record types, translated field by field from index.ts.
   Principal is embedded as a string; nat64 as Nat (amounts stay far below 2^64
   in every claim, and nat64 arithmetic here is addition only, never overflowing
   in the candid model where nat64 traps on overflow rather than wrapping). -/
structure Researcher where
  id : String
  name : String
  address : String
  email : String
  phone : String
  owner : String
  reputation_score : Nat
  total_points : Nat
  badges : List String
  contributions : List String
  achievements : List String
deriving DecidableEq, Repr

structure ResearchProposal where
  id : String
  researcherId : String
  title : String
  description : String
  methodology : String
  milestones : List String
  funding_target : Nat
  current_funding : Nat
  stage : String
  reviews : List String
  timeline : String
deriving DecidableEq, Repr

structure Milestone where
  id : String
  description : String
  required_funding : Nat
  deadline : String
  status : String
  proofs : List String
deriving DecidableEq, Repr

structure Review where
  id : String
  reviewer : String
  score : Nat
  comments : String
  stake_amount : Nat
  verified : Bool
deriving DecidableEq, Repr

structure ProofOfReproduction where
  id : String
  methodology_hash : String
  results_hash : String
  status : String
deriving DecidableEq, Repr

structure researcherPayload where
  name : String
  address : String
  email : String
  phone : String
deriving DecidableEq, Repr

structure CreateProposalPayload where
  researcherId : String
  title : String
  description : String
  methodology : String
  funding_target : Nat
deriving DecidableEq, Repr

structure SubmitReviewPayload where
  proposal_id : String
  score : Nat
  comments : String
  stake_amount : Nat
deriving DecidableEq, Repr

structure FundProposalPayload where
  proposal_id : String
  funding_amount : Nat
deriving DecidableEq, Repr

structure CreateMilestonePayload where
  proposal_id : String
  description : String
  required_funding : Nat
  deadline : String
deriving DecidableEq, Repr

structure VerifyMilestonePayload where
  proposal_id : String
  milestone_id : String
deriving DecidableEq, Repr

structure SubmitProofPayload where
  milestone_id : String
  methodology_hash : String
  results_hash : String
deriving DecidableEq, Repr

/- The five storage maps of index.ts. -/
structure State where
  researchers : Store Researcher
  proposals : Store ResearchProposal
  milestones : Store Milestone
  reviews : Store Review
  proofs : Store ProofOfReproduction
deriving DecidableEq, Repr

def initState : State := ⟨[], [], [], [], []⟩

/- idPayloadValid from index.ts throws Err(InvalidPayload "Please provide a valid ID
   as text.") when the id is empty or whitespace-only; we model the thrown value. -/
def idPayloadValid (id : String) : Option Message :=
  if jsTrim id = "" then some (Message.InvalidPayload "Please provide a valid ID as text.")
  else none

/- The surrounding try/catch of each handler interpolates error.message of the
   thrown object; the thrown Err-wrapped variant has no message property, so the
   caller observes Error "Error occured undefined". -/
def caughtIdError : Message := Message.Error "Error occured undefined"

/- Email regex /^[^\s@]+@[^\s@]+\.[^\s@]+$/ : exactly one at-sign, a nonempty
   whitespace-free local part, and a domain containing a dot with nonempty
   whitespace-free parts on both sides. -/
def isEmailChar (c : Char) : Bool :=
  !c.isWhitespace && c != '@'

def emailRegexTest (e : String) : Bool :=
  let l := e.toList
  let a := l.takeWhile (fun c => c != '@')
  match l.drop a.length with
  | '@' :: r =>
    a.length > 0 && a.all isEmailChar && r.all isEmailChar &&
      ((r.drop 1).dropLast.contains '.')
  | _ => false

/- Phone regex /^[0-9]{10,15}$/. -/
def phoneRegexTest (p : String) : Bool :=
  10 ≤ p.length && p.length ≤ 15 && p.toList.all Char.isDigit

/- createResearcher. The fresh uuid and the caller principal are inputs of the model. -/
def createResearcher (s : State) (caller freshId : String) (payload : researcherPayload) :
    Res Researcher × State :=
  if (jsTrim payload.name).length < 2 then
    (.Err (.InvalidPayload "Name must be at least 2 characters long."), s)
  else if (jsTrim payload.address).length < 5 then
    (.Err (.InvalidPayload "Address must be at least 5 characters long."), s)
  else if !emailRegexTest payload.email then
    (.Err (.InvalidPayload "Invalid email format."), s)
  else if !phoneRegexTest payload.phone then
    (.Err (.InvalidPayload "Phone number must be 10-15 digits."), s)
  else if (Store.values s.researchers).any
      (fun r => r.email == payload.email || r.phone == payload.phone) then
    (.Err (.InvalidPayload "Researcher with this email or phone already exists."), s)
  else
    let researcher : Researcher :=
      { id := freshId
        name := jsTrim payload.name
        address := jsTrim payload.address
        email := jsToLower (jsTrim payload.email)
        phone := String.mk (payload.phone.toList.filter Char.isDigit)
        owner := caller
        reputation_score := 0
        total_points := 0
        badges := []
        contributions := []
        achievements := [] }
    (.Ok researcher, { s with researchers := Store.insert s.researchers freshId researcher })

def createProposal (s : State) (freshId timeline : String) (payload : CreateProposalPayload) :
    Res ResearchProposal × State :=
  match idPayloadValid payload.researcherId with
  | some _ => (.Err caughtIdError, s)
  | none =>
    if payload.title = "" ∨ payload.description = "" ∨ payload.methodology = "" ∨
        payload.funding_target = 0 then
      (.Err (.InvalidPayload "All fields are required, and funding target must be > 0."), s)
    else
      match Store.get s.researchers payload.researcherId with
      | none =>
        (.Err (.NotFound ("Researcher with id=" ++ payload.researcherId ++ " not found.")), s)
      | some _ =>
        let proposal : ResearchProposal :=
          { id := freshId
            researcherId := payload.researcherId
            title := payload.title
            description := payload.description
            methodology := payload.methodology
            milestones := []
            funding_target := payload.funding_target
            current_funding := 0
            stage := "draft"
            reviews := []
            timeline := timeline }
        (.Ok proposal, { s with proposals := Store.insert s.proposals freshId proposal })

def submitReview (s : State) (caller freshId : String) (payload : SubmitReviewPayload) :
    Res Review × State :=
  match idPayloadValid payload.proposal_id with
  | some _ => (.Err caughtIdError, s)
  | none =>
    match Store.get s.proposals payload.proposal_id with
    | none =>
      (.Err (.NotFound ("Proposal with id=" ++ payload.proposal_id ++ " not found.")), s)
    | some proposal =>
      if payload.score < 1 ∨ payload.score > 10 ∨ payload.stake_amount < 100 then
        (.Err (.InvalidPayload "Invalid score or insufficient stake amount."), s)
      else
        let review : Review :=
          { id := freshId
            reviewer := caller
            score := payload.score
            comments := payload.comments
            stake_amount := payload.stake_amount
            verified := false }
        (.Ok review,
          { s with
            reviews := Store.insert s.reviews freshId review
            proposals := Store.insert s.proposals payload.proposal_id
              { proposal with reviews := proposal.reviews ++ [freshId] } })

/- One funding update: current_funding += amount; if current_funding >= funding_target
   then stage := "funding". -/
def fundStep (p : ResearchProposal) (amt : Nat) : ResearchProposal :=
  let cf := p.current_funding + amt
  { p with
    current_funding := cf
    stage := if p.funding_target ≤ cf then "funding" else p.stage }

def fundProposal (s : State) (payload : FundProposalPayload) :
    Res ResearchProposal × State :=
  match idPayloadValid payload.proposal_id with
  | some _ => (.Err caughtIdError, s)
  | none =>
    match Store.get s.proposals payload.proposal_id with
    | none =>
      (.Err (.NotFound ("Proposal with id=" ++ payload.proposal_id ++ " not found.")), s)
    | some proposal =>
      if payload.funding_amount < 100 then
        (.Err (.InvalidPayload "Minimum funding amount is 100 units."), s)
      else
        let updated := fundStep proposal payload.funding_amount
        (.Ok updated,
          { s with proposals := Store.insert s.proposals payload.proposal_id updated })

def createMilestone (s : State) (freshId : String) (payload : CreateMilestonePayload) :
    Res Milestone × State :=
  match idPayloadValid payload.proposal_id with
  | some _ => (.Err caughtIdError, s)
  | none =>
    match Store.get s.proposals payload.proposal_id with
    | none =>
      (.Err (.NotFound ("Proposal with id=" ++ payload.proposal_id ++ " not found.")), s)
    | some proposal =>
      let milestone : Milestone :=
        { id := freshId
          description := payload.description
          required_funding := payload.required_funding
          deadline := payload.deadline
          status := "pending"
          proofs := [] }
      (.Ok milestone,
        { s with
          milestones := Store.insert s.milestones freshId milestone
          proposals := Store.insert s.proposals payload.proposal_id
            { proposal with milestones := proposal.milestones ++ [freshId] } })

/- verifyMilestone guards only milestone_id with idPayloadValid, then requires both
   records to exist (combined NotFound message) and the milestone to be pending. -/
def verifyMilestone (s : State) (payload : VerifyMilestonePayload) :
    Res Milestone × State :=
  match idPayloadValid payload.milestone_id with
  | some _ => (.Err caughtIdError, s)
  | none =>
    match Store.get s.proposals payload.proposal_id,
          Store.get s.milestones payload.milestone_id with
    | some _, some milestone =>
      if milestone.status ≠ "pending" then
        (.Err (.InvalidPayload "Milestone is not in a pending state."), s)
      else
        let updated := { milestone with status := "completed" }
        (.Ok updated,
          { s with milestones := Store.insert s.milestones payload.milestone_id updated })
    | _, _ => (.Err (.NotFound "Proposal or Milestone not found."), s)

def submitProof (s : State) (freshId : String) (payload : SubmitProofPayload) :
    Res ProofOfReproduction × State :=
  match idPayloadValid payload.milestone_id with
  | some _ => (.Err caughtIdError, s)
  | none =>
    match Store.get s.milestones payload.milestone_id with
    | none =>
      (.Err (.NotFound ("Milestone with id=" ++ payload.milestone_id ++ " not found.")), s)
    | some milestone =>
      let pf : ProofOfReproduction :=
        { id := freshId
          methodology_hash := payload.methodology_hash
          results_hash := payload.results_hash
          status := "pending" }
      (.Ok pf,
        { s with
          proofs := Store.insert s.proofs freshId pf
          milestones := Store.insert s.milestones payload.milestone_id
            { milestone with proofs := milestone.proofs ++ [freshId] } })

/- Read-only queries relevant to the claims. getResearcherById appears twice in the
   concatenated source: the first variant calls idPayloadValid inside try/catch, the
   second variant performs the store lookup with no ID-shape check at all. -/
def getResearcherById (s : State) (researcherId : String) : Res Researcher :=
  match idPayloadValid researcherId with
  | some _ => .Err caughtIdError
  | none =>
    match Store.get s.researchers researcherId with
    | none => .Err (.NotFound ("Researcher with id=" ++ researcherId ++ " not found."))
    | some r => .Ok r

def getResearcherByIdV2 (s : State) (researcherId : String) : Res Researcher :=
  match Store.get s.researchers researcherId with
  | none => .Err (.NotFound ("Researcher with id=" ++ researcherId ++ " not found."))
  | some r => .Ok r

/- The operation alphabet of the mutating interface; fresh uuids, caller principals
   and timestamps are inputs of each step. -/
inductive Op where
  | opCreateResearcher (caller freshId : String) (payload : researcherPayload)
  | opCreateProposal (freshId timeline : String) (payload : CreateProposalPayload)
  | opSubmitReview (caller freshId : String) (payload : SubmitReviewPayload)
  | opFundProposal (payload : FundProposalPayload)
  | opCreateMilestone (freshId : String) (payload : CreateMilestonePayload)
  | opVerifyMilestone (payload : VerifyMilestonePayload)
  | opSubmitProof (freshId : String) (payload : SubmitProofPayload)
deriving DecidableEq, Repr

def applyOp (s : State) : Op → State
  | .opCreateResearcher caller freshId payload => (createResearcher s caller freshId payload).2
  | .opCreateProposal freshId timeline payload => (createProposal s freshId timeline payload).2
  | .opSubmitReview caller freshId payload => (submitReview s caller freshId payload).2
  | .opFundProposal payload => (fundProposal s payload).2
  | .opCreateMilestone freshId payload => (createMilestone s freshId payload).2
  | .opVerifyMilestone payload => (verifyMilestone s payload).2
  | .opSubmitProof freshId payload => (submitProof s freshId payload).2

inductive Reachable : State → Prop where
  | init : Reachable initState
  | step (s : State) (op : Op) : Reachable s → Reachable (applyOp s op)

/- The points/reputation variant of the canister (the unnamed source file):
   caller-principal-keyed researcher profiles, a badge catalog, and point-earning
   createProposal / submitReview. Its proposal and review records extend the base
   records ("... existing fields" in the source) with contributors_points and
   points_earned respectively. -/
namespace Points

structure Researcher where
  principal : String
  reputation_score : Nat
  total_points : Nat
  badges : List String
  contributions : List String
  achievements : List String
deriving DecidableEq, Repr

structure Badge where
  id : String
  name : String
  description : String
  points_threshold : Nat
deriving DecidableEq, Repr

structure ContributorPoints where
  principal : String
  points_earned : Nat
deriving DecidableEq, Repr

structure ResearchProposal where
  id : String
  researcher : String
  title : String
  description : String
  methodology : String
  milestones : List String
  funding_target : Nat
  current_funding : Nat
  stage : String
  reviews : List String
  timeline : String
  contributors_points : List ContributorPoints
deriving DecidableEq, Repr

structure Review where
  id : String
  reviewer : String
  score : Nat
  comments : String
  stake_amount : Nat
  verified : Bool
  points_earned : Nat
deriving DecidableEq, Repr

/- Point calculation constants (POINTS in the source). -/
def REVIEW_BASE : Nat := 10

def REVIEW_QUALITY_MULTIPLIER : Nat := 2

def PROPOSAL_CREATION : Nat := 20

def DEFAULT_BADGES : List Badge :=
  [ { id := "research_starter"
      name := "Research Starter"
      description := "Created first research proposal"
      points_threshold := 20 },
    { id := "funding_champion"
      name := "Funding Champion"
      description := "Contributed significant funding to research"
      points_threshold := 500 },
    { id := "review_master"
      name := "Review Master"
      description := "Provided high-quality reviews"
      points_threshold := 200 } ]

structure State where
  Researchers : Store Researcher
  Badges : Store Badge
  Proposals : Store ResearchProposal
  Reviews : Store Review
deriving DecidableEq, Repr

def initState : State := ⟨[], [], [], []⟩

/- researcherOpt.Some || { default zero-state } -/
def profileOrDefault (s : State) (caller : String) : Researcher :=
  match Store.get s.Researchers caller with
  | some r => r
  | none =>
    { principal := caller
      reputation_score := 0
      total_points := 0
      badges := []
      contributions := []
      achievements := [] }

def init (s : State) : Res (List Badge) × State :=
  (.Ok DEFAULT_BADGES,
    { s with
      Badges := DEFAULT_BADGES.foldl (fun b badge => Store.insert b badge.id badge) s.Badges })

def createProposal (s : State) (caller freshId timeline : String)
    (payload : CreateProposalPayload) : Res ResearchProposal × State :=
  if payload.title = "" ∨ payload.description = "" ∨ payload.methodology = "" ∨
      payload.funding_target = 0 then
    (.Err (.InvalidPayload "All fields are required, and funding target must be > 0."), s)
  else
    let researcher := profileOrDefault s caller
    let researcher :=
      { researcher with
        total_points := researcher.total_points + PROPOSAL_CREATION
        contributions := researcher.contributions ++ [freshId] }
    let researcher :=
      if "research_starter" ∈ researcher.badges then researcher
      else { researcher with badges := researcher.badges ++ ["research_starter"] }
    let proposal : ResearchProposal :=
      { id := freshId
        researcher := caller
        title := payload.title
        description := payload.description
        methodology := payload.methodology
        milestones := []
        funding_target := payload.funding_target
        current_funding := 0
        stage := "draft"
        reviews := []
        timeline := timeline
        contributors_points := [] }
    (.Ok proposal,
      { s with
        Researchers := Store.insert s.Researchers caller researcher
        Proposals := Store.insert s.Proposals freshId proposal })

def submitReview (s : State) (caller freshId : String) (payload : SubmitReviewPayload) :
    Res Review × State :=
  match Store.get s.Proposals payload.proposal_id with
  | none =>
    (.Err (.NotFound ("Proposal with id=" ++ payload.proposal_id ++ " not found.")), s)
  | some proposal =>
    if payload.score < 1 ∨ payload.score > 10 ∨ payload.stake_amount < 100 then
      (.Err (.InvalidPayload "Invalid score or insufficient stake amount."), s)
    else
      let points_earned := REVIEW_BASE * payload.score * REVIEW_QUALITY_MULTIPLIER
      let review : Review :=
        { id := freshId
          reviewer := caller
          score := payload.score
          comments := payload.comments
          stake_amount := payload.stake_amount
          verified := false
          points_earned := points_earned }
      let researcher := profileOrDefault s caller
      let researcher :=
        { researcher with
          total_points := researcher.total_points + points_earned
          contributions := researcher.contributions ++ [freshId] }
      let researcher :=
        match Store.get s.Badges "review_master" with
        | some b =>
          if b.points_threshold ≤ researcher.total_points ∧
              "review_master" ∉ researcher.badges then
            { researcher with badges := researcher.badges ++ ["review_master"] }
          else researcher
        | none => researcher
      (.Ok review,
        { s with
          Reviews := Store.insert s.Reviews freshId review
          Researchers := Store.insert s.Researchers caller researcher
          Proposals := Store.insert s.Proposals payload.proposal_id
            { proposal with
              reviews := proposal.reviews ++ [freshId]
              contributors_points := proposal.contributors_points ++
                [{ principal := caller, points_earned := points_earned }] } })

inductive Op where
  | opInit
  | opCreateProposal (caller freshId timeline : String) (payload : CreateProposalPayload)
  | opSubmitReview (caller freshId : String) (payload : SubmitReviewPayload)
deriving DecidableEq, Repr

def applyOp (s : State) : Op → State
  | .opInit => (init s).2
  | .opCreateProposal caller freshId timeline payload =>
    (createProposal s caller freshId timeline payload).2
  | .opSubmitReview caller freshId payload => (submitReview s caller freshId payload).2

inductive Reachable : State → Prop where
  | init : Reachable initState
  | step (s : State) (op : Op) : Reachable s → Reachable (applyOp s op)

end Points

/- Concrete witness data: a proposal with funding_target 1000 and the states
   holding it, mirroring the scenario of the spec (fund 600 then 500). -/
def pW : ResearchProposal :=
  ⟨"p1", "r1", "T", "D", "M", [], 1000, 0, "draft", [], "t0"⟩

def sW : State :=
  { initState with proposals := Store.insert initState.proposals "p1" pW }

def rW : Researcher :=
  ⟨"r1", "Alice A", "1 Main Street", "alice@x.com", "1234567890", "o", 0, 0, [], [], []⟩

def rsW : State :=
  { initState with researchers := Store.insert initState.researchers "r1" rW }

def mW : Milestone := ⟨"m1", "phase one", 400, "2025-12-31", "pending", []⟩

def smW : State :=
  { initState with
    proposals := Store.insert initState.proposals "p1" pW
    milestones := Store.insert initState.milestones "m1" mW }

def Op.isVerifyMilestone : Op → Bool
  | .opVerifyMilestone _ => true
  | _ => false

/- The uuids generated by createMilestone are fresh: no existing milestone is keyed
   by them. Every other operation's fresh ids never key the milestone store. -/
def Op.milestoneFreshOk (s : State) : Op → Prop
  | .opCreateMilestone freshId _ => Store.get s.milestones freshId = none
  | _ => True

def spW : State :=
  { initState with milestones := Store.insert initState.milestones "m1" mW }

/- Referential integrity: every milestone and review id referenced by a stored
   proposal, and every proof id referenced by a stored milestone, keys a record in
   the corresponding store. -/
def refIntegrity (s : State) : Prop :=
  (∀ p ∈ Store.values s.proposals,
    (∀ mid ∈ p.milestones, (Store.get s.milestones mid).isSome) ∧
    (∀ rid ∈ p.reviews, (Store.get s.reviews rid).isSome)) ∧
  (∀ m ∈ Store.values s.milestones, ∀ pid ∈ m.proofs, (Store.get s.proofs pid).isSome)

/- A concrete reachable state: a researcher, a proposal, a review, a milestone and
   a proof, built by five operations from the initial state. -/
def reachW : State :=
  applyOp (applyOp (applyOp (applyOp (applyOp initState
    (Op.opCreateResearcher "o1" "r1" ⟨"Alice A", "1 Main Street", "alice@x.com", "1234567890"⟩))
    (Op.opCreateProposal "p1" "t0" ⟨"r1", "T", "D", "M", 1000⟩))
    (Op.opSubmitReview "o2" "v1" ⟨"p1", 9, "ok", 100⟩))
    (Op.opCreateMilestone "m1" ⟨"p1", "phase one", 400, "2025-12-31"⟩))
    (Op.opSubmitProof "f1" ⟨"m1", "mh", "rh"⟩)

/- No operation ever sets a review's verified flag or moves a proof out of
   "pending". -/
def allUnverified (s : State) : Prop :=
  (∀ r ∈ Store.values s.reviews, r.verified = false) ∧
  (∀ pf ∈ Store.values s.proofs, pf.status = "pending")

/- A concrete reachable state of the points variant: seed the badges, researcher A
   creates proposal p1, researcher B reviews it with score 1 and stake 100. -/
def psW : Points.State :=
  Points.applyOp (Points.applyOp (Points.applyOp Points.initState Points.Op.opInit)
    (Points.Op.opCreateProposal "A" "p1" "t0" ⟨"", "T", "D", "M", 1000⟩))
    (Points.Op.opSubmitReview "B" "v1" ⟨"p1", 1, "ok", 100⟩)

/- The points-variant state after seeding badges and creating proposal p1. -/
def ps2W : Points.State :=
  Points.applyOp (Points.applyOp Points.initState Points.Op.opInit)
    (Points.Op.opCreateProposal "A" "p1" "t0" ⟨"", "T", "D", "M", 1000⟩)

/- The researcher-profile update performed inside the points-variant createProposal
   (add PROPOSAL_CREATION points, record the contribution, add research_starter
   unconditionally if absent) and submitReview (add the earned points, record the
   contribution, add review_master when the stored badge's threshold is met). Both
   equal the handler's internal computation definitionally. -/
def Points.creatorUpdate (s : Points.State) (caller freshId : String) : Points.Researcher :=
  let r := Points.profileOrDefault s caller
  let r1 := { r with
    total_points := r.total_points + Points.PROPOSAL_CREATION
    contributions := r.contributions ++ [freshId] }
  if "research_starter" ∈ r1.badges then r1
  else { r1 with badges := r1.badges ++ ["research_starter"] }

def Points.reviewerUpdate (s : Points.State) (caller freshId : String) (score : Nat) :
    Points.Researcher :=
  let pe := Points.REVIEW_BASE * score * Points.REVIEW_QUALITY_MULTIPLIER
  let r := Points.profileOrDefault s caller
  let r1 := { r with
    total_points := r.total_points + pe
    contributions := r.contributions ++ [freshId] }
  match Store.get s.Badges "review_master" with
  | some b =>
    if b.points_threshold ≤ r1.total_points ∧ "review_master" ∉ r1.badges then
      { r1 with badges := r1.badges ++ ["review_master"] }
    else r1
  | none => r1

def Points.reviewMasterBadge : Points.Badge :=
  ⟨"review_master", "Review Master", "Provided high-quality reviews", 200⟩

/- Per-researcher one-way facts: a held research_starter or review_master badge
   witnesses that total_points reached 20 resp. 200, and funding_champion is never
   held; together with the shape of the seeded review_master badge. -/
def Points.badgeInv (ps : Points.State) : Prop :=
  (Store.get ps.Badges "review_master" = none ∨
    Store.get ps.Badges "review_master" = some Points.reviewMasterBadge) ∧
  ∀ r ∈ Store.values ps.Researchers,
    ("research_starter" ∈ r.badges → 20 ≤ r.total_points) ∧
    ("review_master" ∈ r.badges → 200 ≤ r.total_points) ∧
    "funding_champion" ∉ r.badges

/- Concrete researcher payloads and the one-researcher state reached by registering
   the first of them. -/
def rp1W : researcherPayload := ⟨"Alice A", "1 Main Street", "alice@x.com", "1234567890"⟩

def rp2W : researcherPayload := ⟨"Alice B", "2 Main Street", "Alice@x.com", "9876543210"⟩

def s1W : State := (createResearcher initState "o1" "r1" rp1W).2

def rp3W : researcherPayload := ⟨"Carl C", "3 Main Street", "alice@x.com", "5551234567"⟩

theorem Store.get_insert {α : Type} (s : Store α) (k : String) (v : α) (k' : String) :
    Store.get (Store.insert s k v) k' = if k = k' then some v else Store.get s k' := by
  induction s with
  | nil =>
    simp only [Store.insert, Store.get]
  | cons e rest ih =>
    by_cases he : e.1 = k
    · simp only [Store.insert, Store.get, he, if_pos]
      by_cases hk : k = k'
      · simp [hk]
      · simp [hk, Store.get, fun h => hk h]
    · simp only [Store.insert, Store.get, he, if_neg, ite_false]
      by_cases he' : e.1 = k'
      · have : ¬ k = k' := fun h => he (h ▸ he')
        simp [Store.get, he', this]
      · simp [Store.get, he', ih]

theorem Store.get_insert_self {α : Type} (s : Store α) (k : String) (v : α) :
    Store.get (Store.insert s k v) k = some v := by
  simp [Store.get_insert]

theorem Store.isSome_get_insert {α : Type} {s : Store α} {k' : String} (k : String) (v : α)
    (h : (Store.get s k').isSome) : (Store.get (Store.insert s k v) k').isSome := by
  rw [Store.get_insert]
  by_cases hk : k = k' <;> simp [hk, h]

theorem Store.mem_values_insert {α : Type} {s : Store α} {k : String} {v a : α}
    (h : a ∈ Store.values (Store.insert s k v)) : a = v ∨ a ∈ Store.values s := by
  induction s with
  | nil =>
    simp [Store.insert, Store.values] at h
    exact Or.inl h
  | cons e rest ih =>
    by_cases he : e.1 = k
    · simp only [Store.insert, he, if_pos, Store.values, List.map_cons, List.mem_cons] at h
      rcases h with h | h
      · exact Or.inl h
      · exact Or.inr (by simp [Store.values, List.mem_cons]; right; simpa [Store.values] using h)
    · simp only [Store.insert, he, ite_false, Store.values, List.map_cons, List.mem_cons] at h
      rcases h with h | h
      · exact Or.inr (by simp [Store.values, h])
      · rcases ih (by simpa [Store.values] using h) with h' | h'
        · exact Or.inl h'
        · exact Or.inr (by simp [Store.values] at h' ⊢; right; exact h')

theorem Store.mem_values_of_get {α : Type} {s : Store α} {k : String} {a : α}
    (h : Store.get s k = some a) : a ∈ Store.values s := by
  induction s with
  | nil => simp [Store.get] at h
  | cons e rest ih =>
    simp only [Store.get] at h
    by_cases he : e.1 = k
    · simp [he] at h
      simp [Store.values, h]
    · simp [he] at h
      simp [Store.values]
      right
      simpa [Store.values] using ih h

/- Behaviour lemmas for fundProposal. -/
theorem fundProposal_ok (s : State) (payload : FundProposalPayload) (p : ResearchProposal)
    (hid : jsTrim payload.proposal_id ≠ "")
    (hp : Store.get s.proposals payload.proposal_id = some p)
    (hamt : 100 ≤ payload.funding_amount) :
    fundProposal s payload =
      (.Ok (fundStep p payload.funding_amount),
        { s with proposals := Store.insert s.proposals payload.proposal_id (fundStep p payload.funding_amount) }) := by
  unfold fundProposal idPayloadValid
  simp [hid, hp, Nat.not_lt.mpr hamt]

theorem fundStep_target (p : ResearchProposal) (amt : Nat) :
    (fundStep p amt).funding_target = p.funding_target := rfl

/- Invariant carried through a funding sequence: the stage is "funding" when the
   target has been met and "draft" otherwise. -/
theorem fundStep_foldl (amts : List Nat) (p : ResearchProposal)
    (h1 : p.funding_target ≤ p.current_funding → p.stage = "funding")
    (h2 : p.current_funding < p.funding_target → p.stage = "draft") :
    (List.foldl fundStep p amts).current_funding = p.current_funding + amts.sum ∧
    (List.foldl fundStep p amts).funding_target = p.funding_target ∧
    (p.funding_target ≤ p.current_funding + amts.sum →
      (List.foldl fundStep p amts).stage = "funding") ∧
    (p.current_funding + amts.sum < p.funding_target →
      (List.foldl fundStep p amts).stage = "draft") := by
  induction amts generalizing p with
  | nil =>
    simp only [List.foldl_nil, List.sum_nil, Nat.add_zero]
    exact ⟨trivial, trivial, h1, h2⟩
  | cons a rest ih =>
    have hstep1 : (fundStep p a).funding_target ≤ (fundStep p a).current_funding →
        (fundStep p a).stage = "funding" := by
      intro h
      simp only [fundStep] at h ⊢
      simp [h]
    have hstep2 : (fundStep p a).current_funding < (fundStep p a).funding_target →
        (fundStep p a).stage = "draft" := by
      intro h
      simp only [fundStep] at h ⊢
      rw [if_neg (Nat.not_le.mpr h)]
      exact h2 (lt_of_le_of_lt (Nat.le_add_right _ _) h)
    have hcf : (fundStep p a).current_funding = p.current_funding + a := rfl
    have := ih (fundStep p a) hstep1 hstep2
    simpa [hcf, fundStep_target, List.sum_cons, Nat.add_assoc] using this

/-- C1: fundProposal is monotonic. Its success path replaces the stored proposal by
`fundStep` (current_funding += amount; stage set to "funding" once the target is met);
folding `fundStep` over any sequence of amounts from a freshly created proposal
(current_funding 0, stage "draft", positive target as createProposal guarantees)
yields current_funding equal to the sum of the amounts, with stage "funding" exactly
when the cumulative sum has reached funding_target and "draft" otherwise; a stage of
"funding" never reverts under further funding; an amount below 100 yields
InvalidPayload with the state unchanged; a well-formed but unknown proposal id
yields NotFound with the state unchanged; and every proposal returned by a
successful createProposal starts with current_funding 0, stage "draft" and a
positive funding_target. -/
theorem fundProposal_monotonic_spec :
    (∀ (s : State) (payload : FundProposalPayload) (p : ResearchProposal),
      jsTrim payload.proposal_id ≠ "" →
      Store.get s.proposals payload.proposal_id = some p →
      100 ≤ payload.funding_amount →
      (fundProposal s payload).1 = .Ok (fundStep p payload.funding_amount) ∧
      Store.get (fundProposal s payload).2.proposals payload.proposal_id =
        some (fundStep p payload.funding_amount)) ∧
    (∀ (p : ResearchProposal) (amts : List Nat),
      p.current_funding = 0 → p.stage = "draft" → 1 ≤ p.funding_target →
      (List.foldl fundStep p amts).current_funding = amts.sum ∧
      ((List.foldl fundStep p amts).stage = "funding" ↔ p.funding_target ≤ amts.sum) ∧
      ((List.foldl fundStep p amts).stage = "draft" ↔ amts.sum < p.funding_target)) ∧
    (∀ (p : ResearchProposal) (amt : Nat),
      p.stage = "funding" → (fundStep p amt).stage = "funding") ∧
    (∀ (s : State) (payload : FundProposalPayload) (p : ResearchProposal),
      jsTrim payload.proposal_id ≠ "" →
      Store.get s.proposals payload.proposal_id = some p →
      payload.funding_amount < 100 →
      fundProposal s payload =
        (.Err (.InvalidPayload "Minimum funding amount is 100 units."), s)) ∧
    (∀ (s : State) (payload : FundProposalPayload),
      jsTrim payload.proposal_id ≠ "" →
      Store.get s.proposals payload.proposal_id = none →
      fundProposal s payload =
        (.Err (.NotFound ("Proposal with id=" ++ payload.proposal_id ++ " not found.")), s)) ∧
    (∀ (s : State) (freshId timeline : String) (payload : CreateProposalPayload)
      (q : ResearchProposal),
      (createProposal s freshId timeline payload).1 = .Ok q →
      q.current_funding = 0 ∧ q.stage = "draft" ∧ 1 ≤ q.funding_target) := by
  refine ⟨?_, ?_, ?_, ?_, ?_, ?_⟩
  · intro s payload p hid hp hamt
    rw [fundProposal_ok s payload p hid hp hamt]
    exact ⟨rfl, Store.get_insert_self _ _ _⟩
  · intro p amts hcf hstage htarget
    have h1 : p.funding_target ≤ p.current_funding → p.stage = "funding" := by
      intro h
      rw [hcf] at h
      omega
    have h2 : p.current_funding < p.funding_target → p.stage = "draft" := fun _ => hstage
    obtain ⟨hsum, -, hfund, hdraft⟩ := fundStep_foldl amts p h1 h2
    rw [hcf] at hsum hfund hdraft
    simp only [Nat.zero_add] at hsum hfund hdraft
    refine ⟨hsum, ⟨?_, hfund⟩, ⟨?_, hdraft⟩⟩
    · intro hf
      by_contra hlt
      rw [hdraft (Nat.lt_of_not_le hlt)] at hf
      exact absurd hf (by decide)
    · intro hd
      by_contra hge
      rw [hfund (Nat.le_of_not_lt hge)] at hd
      exact absurd hd (by decide)
  · intro p amt hstage
    simp only [fundStep]
    by_cases h : p.funding_target ≤ p.current_funding + amt <;> simp [h, hstage]
  · intro s payload p hid hp hamt
    unfold fundProposal idPayloadValid
    simp [hid, hp, hamt]
  · intro s payload hid hp
    unfold fundProposal idPayloadValid
    simp [hid, hp]
  · intro s freshId timeline payload q hq
    unfold createProposal idPayloadValid at hq
    by_cases hid : jsTrim payload.researcherId = ""
    · simp [hid] at hq
    · simp only [hid, if_neg, ite_false] at hq
      by_cases hfields : payload.title = "" ∨ payload.description = "" ∨
          payload.methodology = "" ∨ payload.funding_target = 0
      · simp [hfields] at hq
      · simp only [hfields, ite_false, if_neg] at hq
        rcases hg : Store.get s.researchers payload.researcherId with - | r
        · rw [hg] at hq
          simp at hq
        · rw [hg] at hq
          simp only [Result.Ok.injEq] at hq
          have hft : payload.funding_target ≠ 0 := by tauto
          subst hq
          exact ⟨rfl, rfl, Nat.one_le_iff_ne_zero.mpr hft⟩

/-- Witness for C1 at concrete inputs: proposal p1 (target 1000) funded with 600
then 500 reaches current_funding 1100 and stage "funding"; an amount of 50 is
rejected with InvalidPayload; an unknown id p2 yields NotFound; createProposal
produces exactly pW with funding 0, stage "draft" and positive target. -/
theorem fundProposal_monotonic_spec_witness :
    (Store.get sW.proposals "p1" = some pW ∧
      (fundProposal sW ⟨"p1", 600⟩).1 = .Ok (fundStep pW 600) ∧
      Store.get (fundProposal sW ⟨"p1", 600⟩).2.proposals "p1" = some (fundStep pW 600)) ∧
    ((List.foldl fundStep pW [600, 500]).current_funding = List.sum [600, 500] ∧
      ((List.foldl fundStep pW [600, 500]).stage = "funding" ↔
        pW.funding_target ≤ List.sum [600, 500])) ∧
    ((fundStep (fundStep pW 1000) 100).stage = "funding") ∧
    (fundProposal sW ⟨"p1", 50⟩ =
      (.Err (.InvalidPayload "Minimum funding amount is 100 units."), sW)) ∧
    (fundProposal sW ⟨"p2", 600⟩ =
      (.Err (.NotFound ("Proposal with id=" ++ "p2" ++ " not found.")), sW)) ∧
    (pW.current_funding = 0 ∧ pW.stage = "draft" ∧ 1 ≤ pW.funding_target) :=
  ⟨⟨by decide,
    (fundProposal_monotonic_spec.1 sW ⟨"p1", 600⟩ pW (by decide) (by decide) (by decide)).1,
    (fundProposal_monotonic_spec.1 sW ⟨"p1", 600⟩ pW (by decide) (by decide) (by decide)).2⟩,
    ⟨(fundProposal_monotonic_spec.2.1 pW [600, 500] (by decide) (by decide) (by decide)).1,
      (fundProposal_monotonic_spec.2.1 pW [600, 500] (by decide) (by decide) (by decide)).2.1⟩,
    fundProposal_monotonic_spec.2.2.1 (fundStep pW 1000) 100 (by decide),
    fundProposal_monotonic_spec.2.2.2.1 sW ⟨"p1", 50⟩ pW (by decide) (by decide) (by decide),
    fundProposal_monotonic_spec.2.2.2.2.1 sW ⟨"p2", 600⟩ (by decide) (by decide),
    fundProposal_monotonic_spec.2.2.2.2.2 rsW "p1" "t0" ⟨"r1", "T", "D", "M", 1000⟩ pW (by decide)⟩

/- Behaviour lemma for verifyMilestone's success path. -/
theorem verifyMilestone_ok (s : State) (payload : VerifyMilestonePayload)
    (p : ResearchProposal) (m : Milestone)
    (hid : jsTrim payload.milestone_id ≠ "")
    (hp : Store.get s.proposals payload.proposal_id = some p)
    (hm : Store.get s.milestones payload.milestone_id = some m)
    (hst : m.status = "pending") :
    verifyMilestone s payload =
      (.Ok { m with status := "completed" },
        { s with milestones := Store.insert s.milestones payload.milestone_id { m with status := "completed" } }) := by
  unfold verifyMilestone idPayloadValid
  simp [hid, hp, hm, hst]

/-- C2: verifyMilestone succeeds exactly when the proposal exists, the milestone
exists and its status is "pending" — the success hypothesis places no constraint on
the milestone's proofs list, so no proof ever needs to have been submitted — in
which case it returns and stores the milestone with status "completed"; when either
record is missing it returns the combined NotFound message; when the milestone is
not pending it returns InvalidPayload; and a second verification of the same
milestone immediately after a successful one returns InvalidPayload. -/
theorem verifyMilestone_spec :
    (∀ (s : State) (payload : VerifyMilestonePayload) (p : ResearchProposal) (m : Milestone),
      jsTrim payload.milestone_id ≠ "" →
      Store.get s.proposals payload.proposal_id = some p →
      Store.get s.milestones payload.milestone_id = some m →
      m.status = "pending" →
      (verifyMilestone s payload).1 = .Ok { m with status := "completed" } ∧
      Store.get (verifyMilestone s payload).2.milestones payload.milestone_id =
        some { m with status := "completed" } ∧
      (verifyMilestone s payload).2.proposals = s.proposals) ∧
    (∀ (s : State) (payload : VerifyMilestonePayload),
      jsTrim payload.milestone_id ≠ "" →
      (Store.get s.proposals payload.proposal_id = none ∨
        Store.get s.milestones payload.milestone_id = none) →
      verifyMilestone s payload = (.Err (.NotFound "Proposal or Milestone not found."), s)) ∧
    (∀ (s : State) (payload : VerifyMilestonePayload) (p : ResearchProposal) (m : Milestone),
      jsTrim payload.milestone_id ≠ "" →
      Store.get s.proposals payload.proposal_id = some p →
      Store.get s.milestones payload.milestone_id = some m →
      m.status ≠ "pending" →
      verifyMilestone s payload =
        (.Err (.InvalidPayload "Milestone is not in a pending state."), s)) ∧
    (∀ (s : State) (payload : VerifyMilestonePayload) (p : ResearchProposal) (m : Milestone),
      jsTrim payload.milestone_id ≠ "" →
      Store.get s.proposals payload.proposal_id = some p →
      Store.get s.milestones payload.milestone_id = some m →
      m.status = "pending" →
      (verifyMilestone (verifyMilestone s payload).2 payload).1 =
        .Err (.InvalidPayload "Milestone is not in a pending state.")) := by
  refine ⟨?_, ?_, ?_, ?_⟩
  · intro s payload p m hid hp hm hst
    rw [verifyMilestone_ok s payload p m hid hp hm hst]
    exact ⟨rfl, Store.get_insert_self _ _ _, rfl⟩
  · intro s payload hid hmiss
    unfold verifyMilestone idPayloadValid
    rcases hmiss with hmiss | hmiss
    · rcases hg : Store.get s.milestones payload.milestone_id with - | m <;>
        simp [hid, hmiss, hg]
    · rcases hg : Store.get s.proposals payload.proposal_id with - | p <;>
        simp [hid, hmiss, hg]
  · intro s payload p m hid hp hm hst
    unfold verifyMilestone idPayloadValid
    simp [hid, hp, hm, hst]
  · intro s payload p m hid hp hm hst
    rw [verifyMilestone_ok s payload p m hid hp hm hst]
    unfold verifyMilestone idPayloadValid
    simp [hid, hp, Store.get_insert_self]

/-- Witness for C2 at concrete inputs: in a state holding proposal p1 and pending
milestone m1 with no submitted proofs, verifyMilestone succeeds and stores status
"completed"; an unknown milestone id yields the combined NotFound; a second
verification yields InvalidPayload. -/
theorem verifyMilestone_spec_witness :
    ((verifyMilestone smW ⟨"p1", "m1"⟩).1 = .Ok { mW with status := "completed" } ∧
      Store.get (verifyMilestone smW ⟨"p1", "m1"⟩).2.milestones "m1" =
        some { mW with status := "completed" } ∧
      (verifyMilestone smW ⟨"p1", "m1"⟩).2.proposals = smW.proposals) ∧
    (verifyMilestone smW ⟨"p1", "m2"⟩ =
      (.Err (.NotFound "Proposal or Milestone not found."), smW)) ∧
    ((verifyMilestone (verifyMilestone smW ⟨"p1", "m1"⟩).2 ⟨"p1", "m1"⟩).1 =
      .Err (.InvalidPayload "Milestone is not in a pending state.")) :=
  ⟨verifyMilestone_spec.1 smW ⟨"p1", "m1"⟩ pW mW (by decide) (by decide) (by decide) (by decide),
    verifyMilestone_spec.2.1 smW ⟨"p1", "m2"⟩ (by decide) (Or.inr (by decide)),
    verifyMilestone_spec.2.2.2 smW ⟨"p1", "m1"⟩ pW mW (by decide) (by decide) (by decide)
      (by decide)⟩

/- State characterization of each mutating operation: either the call failed and the
   state is unchanged, or the state is the described update. -/
theorem createResearcher_state (s : State) (caller freshId : String)
    (payload : researcherPayload) :
    (createResearcher s caller freshId payload).2 = s ∨
    ∃ r : Researcher,
      (createResearcher s caller freshId payload).2 =
        { s with researchers := Store.insert s.researchers freshId r } := by
  unfold createResearcher
  split
  · exact Or.inl rfl
  split
  · exact Or.inl rfl
  split
  · exact Or.inl rfl
  split
  · exact Or.inl rfl
  split
  · exact Or.inl rfl
  · exact Or.inr ⟨_, rfl⟩

theorem createProposal_state (s : State) (freshId timeline : String)
    (payload : CreateProposalPayload) :
    (createProposal s freshId timeline payload).2 = s ∨
    ∃ q : ResearchProposal, q.milestones = [] ∧ q.reviews = [] ∧
      (createProposal s freshId timeline payload).2 =
        { s with proposals := Store.insert s.proposals freshId q } := by
  unfold createProposal
  cases hid : idPayloadValid payload.researcherId with
  | some msg => exact Or.inl rfl
  | none =>
    by_cases hfields : payload.title = "" ∨ payload.description = "" ∨
        payload.methodology = "" ∨ payload.funding_target = 0
    · simp only [if_pos hfields]
      exact Or.inl (by trivial)
    · simp only [if_neg hfields]
      cases hg : Store.get s.researchers payload.researcherId with
      | none => exact Or.inl rfl
      | some r => exact Or.inr ⟨_, rfl, rfl, rfl⟩

theorem submitReview_state (s : State) (caller freshId : String)
    (payload : SubmitReviewPayload) :
    (submitReview s caller freshId payload).2 = s ∨
    ∃ p : ResearchProposal, Store.get s.proposals payload.proposal_id = some p ∧
      (submitReview s caller freshId payload).2 =
        { s with
          reviews := Store.insert s.reviews freshId
            ⟨freshId, caller, payload.score, payload.comments, payload.stake_amount, false⟩
          proposals := Store.insert s.proposals payload.proposal_id { p with reviews := p.reviews ++ [freshId] } } := by
  unfold submitReview
  cases hid : idPayloadValid payload.proposal_id with
  | some msg => exact Or.inl rfl
  | none =>
    cases hg : Store.get s.proposals payload.proposal_id with
    | none => exact Or.inl rfl
    | some p =>
      by_cases hval : payload.score < 1 ∨ payload.score > 10 ∨ payload.stake_amount < 100
      · simp only [if_pos hval]
        exact Or.inl (by trivial)
      · simp only [if_neg hval]
        exact Or.inr ⟨p, rfl, rfl⟩

theorem fundProposal_state (s : State) (payload : FundProposalPayload) :
    (fundProposal s payload).2 = s ∨
    ∃ p : ResearchProposal, Store.get s.proposals payload.proposal_id = some p ∧
      (fundProposal s payload).2 =
        { s with proposals := Store.insert s.proposals payload.proposal_id (fundStep p payload.funding_amount) } := by
  unfold fundProposal
  cases hid : idPayloadValid payload.proposal_id with
  | some msg => exact Or.inl rfl
  | none =>
    cases hg : Store.get s.proposals payload.proposal_id with
    | none => exact Or.inl rfl
    | some p =>
      by_cases hamt : payload.funding_amount < 100
      · simp only [if_pos hamt]
        exact Or.inl (by trivial)
      · simp only [if_neg hamt]
        exact Or.inr ⟨p, rfl, rfl⟩

theorem createMilestone_state (s : State) (freshId : String)
    (payload : CreateMilestonePayload) :
    (createMilestone s freshId payload).2 = s ∨
    ∃ p : ResearchProposal, Store.get s.proposals payload.proposal_id = some p ∧
      (createMilestone s freshId payload).2 =
        { s with
          milestones := Store.insert s.milestones freshId
            ⟨freshId, payload.description, payload.required_funding, payload.deadline,
              "pending", []⟩
          proposals := Store.insert s.proposals payload.proposal_id { p with milestones := p.milestones ++ [freshId] } } := by
  unfold createMilestone
  cases hid : idPayloadValid payload.proposal_id with
  | some msg => exact Or.inl rfl
  | none =>
    cases hg : Store.get s.proposals payload.proposal_id with
    | none => exact Or.inl rfl
    | some p => exact Or.inr ⟨p, rfl, rfl⟩

theorem verifyMilestone_state (s : State) (payload : VerifyMilestonePayload) :
    (verifyMilestone s payload).2 = s ∨
    ∃ m : Milestone, Store.get s.milestones payload.milestone_id = some m ∧
      (verifyMilestone s payload).2 =
        { s with milestones := Store.insert s.milestones payload.milestone_id { m with status := "completed" } } := by
  unfold verifyMilestone
  cases hid : idPayloadValid payload.milestone_id with
  | some msg => exact Or.inl rfl
  | none =>
    cases hp : Store.get s.proposals payload.proposal_id with
    | none =>
      cases hm : Store.get s.milestones payload.milestone_id with
      | none => exact Or.inl rfl
      | some m => exact Or.inl rfl
    | some p =>
      cases hm : Store.get s.milestones payload.milestone_id with
      | none => exact Or.inl rfl
      | some m =>
        by_cases hst : m.status ≠ "pending"
        · simp only [if_pos hst]
          exact Or.inl (by trivial)
        · simp only [if_neg hst]
          exact Or.inr ⟨m, rfl, rfl⟩

theorem submitProof_state (s : State) (freshId : String) (payload : SubmitProofPayload) :
    (submitProof s freshId payload).2 = s ∨
    ∃ m : Milestone, Store.get s.milestones payload.milestone_id = some m ∧
      (submitProof s freshId payload).2 =
        { s with
          proofs := Store.insert s.proofs freshId
            ⟨freshId, payload.methodology_hash, payload.results_hash, "pending"⟩
          milestones := Store.insert s.milestones payload.milestone_id { m with proofs := m.proofs ++ [freshId] } } := by
  unfold submitProof
  cases hid : idPayloadValid payload.milestone_id with
  | some msg => exact Or.inl rfl
  | none =>
    cases hm : Store.get s.milestones payload.milestone_id with
    | none => exact Or.inl rfl
    | some m => exact Or.inr ⟨m, rfl, rfl⟩

/-- C7: a milestone's status field is written by no operation other than
verifyMilestone — every non-verifyMilestone operation (with fresh uuids) maps a
stored milestone to a stored milestone with the same status — and a successful
submitProof returns a proof record with status "pending" whose id is appended to
the milestone's proofs list while the milestone's status and all other fields stay
exactly as they were. -/
theorem milestoneStatus_only_verifyMilestone :
    (∀ (s : State) (op : Op), Op.isVerifyMilestone op = false → Op.milestoneFreshOk s op →
      ∀ (mid : String) (m : Milestone), Store.get s.milestones mid = some m →
      ∃ m' : Milestone, Store.get (applyOp s op).milestones mid = some m' ∧
        m'.status = m.status) ∧
    (∀ (s : State) (freshId : String) (payload : SubmitProofPayload) (m : Milestone),
      jsTrim payload.milestone_id ≠ "" →
      Store.get s.milestones payload.milestone_id = some m →
      (submitProof s freshId payload).1 =
        .Ok ⟨freshId, payload.methodology_hash, payload.results_hash, "pending"⟩ ∧
      Store.get (submitProof s freshId payload).2.milestones payload.milestone_id =
        some { m with proofs := m.proofs ++ [freshId] }) := by
  constructor
  · intro s op hnv hfresh mid m hm
    cases op with
    | opCreateResearcher caller freshId payload =>
      rcases createResearcher_state s caller freshId payload with h | ⟨r, h⟩ <;>
        exact ⟨m, by simp only [applyOp, h]; exact hm, rfl⟩
    | opCreateProposal freshId timeline payload =>
      rcases createProposal_state s freshId timeline payload with h | ⟨q, -, -, h⟩ <;>
        exact ⟨m, by simp only [applyOp, h]; exact hm, rfl⟩
    | opSubmitReview caller freshId payload =>
      rcases submitReview_state s caller freshId payload with h | ⟨p, -, h⟩ <;>
        exact ⟨m, by simp only [applyOp, h]; exact hm, rfl⟩
    | opFundProposal payload =>
      rcases fundProposal_state s payload with h | ⟨p, -, h⟩ <;>
        exact ⟨m, by simp only [applyOp, h]; exact hm, rfl⟩
    | opCreateMilestone freshId payload =>
      rcases createMilestone_state s freshId payload with h | ⟨p, -, h⟩
      · exact ⟨m, by simp only [applyOp, h]; exact hm, rfl⟩
      · refine ⟨m, ?_, rfl⟩
        simp only [applyOp, h]
        have hne : freshId ≠ mid := by
          intro he
          have hfresh' : Store.get s.milestones freshId = none := hfresh
          rw [he, hm] at hfresh'
          exact Option.noConfusion hfresh'
        rw [Store.get_insert]
        simp [hne, hm]
    | opVerifyMilestone payload =>
      simp [Op.isVerifyMilestone] at hnv
    | opSubmitProof freshId payload =>
      rcases submitProof_state s freshId payload with h | ⟨m₀, hm₀, h⟩
      · exact ⟨m, by simp only [applyOp, h]; exact hm, rfl⟩
      · by_cases hk : payload.milestone_id = mid
        · subst hk
          rw [hm₀] at hm
          injection hm with hmm
          refine ⟨{ m with proofs := m.proofs ++ [freshId] }, ?_, rfl⟩
          simp only [applyOp, h, hmm]
          exact Store.get_insert_self _ _ _
        · refine ⟨m, ?_, rfl⟩
          simp only [applyOp, h]
          rw [Store.get_insert]
          simp [hk, hm]
  · intro s freshId payload m hid hm
    unfold submitProof idPayloadValid
    simp [hid, hm, Store.get_insert_self]

/-- Witness for C7 at concrete inputs: funding proposal p1 leaves milestone m1's
status untouched, and submitting proof f1 for m1 returns a pending proof and
appends f1 to m1's proofs list without changing its status. -/
theorem milestoneStatus_only_verifyMilestone_witness :
    (∃ m' : Milestone,
      Store.get (applyOp smW (Op.opFundProposal ⟨"p1", 600⟩)).milestones "m1" = some m' ∧
      m'.status = mW.status) ∧
    ((submitProof spW "f1" ⟨"m1", "mh", "rh"⟩).1 = .Ok ⟨"f1", "mh", "rh", "pending"⟩ ∧
      Store.get (submitProof spW "f1" ⟨"m1", "mh", "rh"⟩).2.milestones "m1" =
        some { mW with proofs := mW.proofs ++ ["f1"] }) :=
  ⟨milestoneStatus_only_verifyMilestone.1 smW (Op.opFundProposal ⟨"p1", 600⟩) (by decide)
      (by exact trivial) "m1" mW (by decide),
    milestoneStatus_only_verifyMilestone.2 spW "f1" ⟨"m1", "mh", "rh"⟩ mW (by decide)
      (by decide)⟩

theorem refIntegrity_applyOp (s : State) (op : Op) (h : refIntegrity s) :
    refIntegrity (applyOp s op) := by
  obtain ⟨hA, hB⟩ := h
  cases op with
  | opCreateResearcher caller freshId payload =>
    rcases createResearcher_state s caller freshId payload with hs | ⟨r, hs⟩ <;>
      · simp only [applyOp, hs]
        exact ⟨hA, hB⟩
  | opCreateProposal freshId timeline payload =>
    rcases createProposal_state s freshId timeline payload with hs | ⟨q, hq1, hq2, hs⟩
    · simp only [applyOp, hs]
      exact ⟨hA, hB⟩
    · simp only [applyOp, hs]
      refine ⟨?_, hB⟩
      intro p hp
      rcases Store.mem_values_insert hp with hp | hp
      · subst hp
        rw [hq1, hq2]
        exact ⟨by simp, by simp⟩
      · exact hA p hp
  | opSubmitReview caller freshId payload =>
    rcases submitReview_state s caller freshId payload with hs | ⟨p, hp, hs⟩
    · simp only [applyOp, hs]
      exact ⟨hA, hB⟩
    · simp only [applyOp, hs]
      refine ⟨?_, hB⟩
      intro p' hp'
      rcases Store.mem_values_insert hp' with hp' | hp'
      · subst hp'
        refine ⟨fun mid hmid => (hA p (Store.mem_values_of_get hp)).1 mid hmid, ?_⟩
        intro rid hrid
        simp only [List.mem_append, List.mem_singleton] at hrid
        rcases hrid with hrid | hrid
        · exact Store.isSome_get_insert _ _ ((hA p (Store.mem_values_of_get hp)).2 rid hrid)
        · subst hrid
          simp [Store.get_insert_self]
      · exact ⟨(hA p' hp').1,
          fun rid hrid => Store.isSome_get_insert _ _ ((hA p' hp').2 rid hrid)⟩
  | opFundProposal payload =>
    rcases fundProposal_state s payload with hs | ⟨p, hp, hs⟩
    · simp only [applyOp, hs]
      exact ⟨hA, hB⟩
    · simp only [applyOp, hs]
      refine ⟨?_, hB⟩
      intro p' hp'
      rcases Store.mem_values_insert hp' with hp' | hp'
      · subst hp'
        exact hA p (Store.mem_values_of_get hp)
      · exact hA p' hp'
  | opCreateMilestone freshId payload =>
    rcases createMilestone_state s freshId payload with hs | ⟨p, hp, hs⟩
    · simp only [applyOp, hs]
      exact ⟨hA, hB⟩
    · simp only [applyOp, hs]
      constructor
      · intro p' hp'
        rcases Store.mem_values_insert hp' with hp' | hp'
        · subst hp'
          refine ⟨?_, (hA p (Store.mem_values_of_get hp)).2⟩
          intro mid hmid
          simp only [List.mem_append, List.mem_singleton] at hmid
          rcases hmid with hmid | hmid
          · exact Store.isSome_get_insert _ _
              ((hA p (Store.mem_values_of_get hp)).1 mid hmid)
          · subst hmid
            simp [Store.get_insert_self]
        · exact ⟨fun mid hmid => Store.isSome_get_insert _ _ ((hA p' hp').1 mid hmid),
            (hA p' hp').2⟩
      · intro m hm
        rcases Store.mem_values_insert hm with hm | hm
        · subst hm
          simp
        · exact hB m hm
  | opVerifyMilestone payload =>
    rcases verifyMilestone_state s payload with hs | ⟨m, hm, hs⟩
    · simp only [applyOp, hs]
      exact ⟨hA, hB⟩
    · simp only [applyOp, hs]
      constructor
      · intro p hp
        exact ⟨fun mid hmid => Store.isSome_get_insert _ _ ((hA p hp).1 mid hmid),
          (hA p hp).2⟩
      · intro m' hm'
        rcases Store.mem_values_insert hm' with hm' | hm'
        · subst hm'
          exact hB m (Store.mem_values_of_get hm)
        · exact hB m' hm'
  | opSubmitProof freshId payload =>
    rcases submitProof_state s freshId payload with hs | ⟨m, hm, hs⟩
    · simp only [applyOp, hs]
      exact ⟨hA, hB⟩
    · simp only [applyOp, hs]
      constructor
      · intro p hp
        exact ⟨fun mid hmid => Store.isSome_get_insert _ _ ((hA p hp).1 mid hmid),
          (hA p hp).2⟩
      · intro m' hm'
        rcases Store.mem_values_insert hm' with hm' | hm'
        · subst hm'
          intro pid hpid
          simp only [List.mem_append, List.mem_singleton] at hpid
          rcases hpid with hpid | hpid
          · exact Store.isSome_get_insert _ _ (hB m (Store.mem_values_of_get hm) pid hpid)
          · subst hpid
            simp [Store.get_insert_self]
        · exact fun pid hpid => Store.isSome_get_insert _ _ (hB m' hm' pid hpid)

/-- C4: referential integrity is an invariant of every reachable state — in any
state reachable from the initial empty stores by the mutating operations, every
milestone id and review id referenced by a stored proposal keys a record in the
milestone and review store, and every proof id referenced by a stored milestone
keys a record in the proof store. -/
theorem referential_integrity_reachable (s : State) (h : Reachable s) :
    refIntegrity s := by
  induction h with
  | init =>
    refine ⟨?_, ?_⟩ <;> intro x hx <;> simp [initState, Store.values] at hx
  | step s op hs ih => exact refIntegrity_applyOp s op ih

theorem reachW_reachable : Reachable reachW :=
  Reachable.step _ _ (Reachable.step _ _ (Reachable.step _ _ (Reachable.step _ _
    (Reachable.step _ _ Reachable.init))))

/-- Witness for C4: the concrete reachable five-operation state satisfies
referential integrity. -/
theorem referential_integrity_reachable_witness : refIntegrity reachW :=
  referential_integrity_reachable reachW reachW_reachable

theorem allUnverified_applyOp (s : State) (op : Op) (h : allUnverified s) :
    allUnverified (applyOp s op) := by
  obtain ⟨hR, hP⟩ := h
  cases op with
  | opCreateResearcher caller freshId payload =>
    rcases createResearcher_state s caller freshId payload with hs | ⟨r, hs⟩ <;>
      · simp only [applyOp, hs]
        exact ⟨hR, hP⟩
  | opCreateProposal freshId timeline payload =>
    rcases createProposal_state s freshId timeline payload with hs | ⟨q, -, -, hs⟩ <;>
      · simp only [applyOp, hs]
        exact ⟨hR, hP⟩
  | opSubmitReview caller freshId payload =>
    rcases submitReview_state s caller freshId payload with hs | ⟨p, hp, hs⟩
    · simp only [applyOp, hs]
      exact ⟨hR, hP⟩
    · simp only [applyOp, hs]
      refine ⟨?_, hP⟩
      intro r hr
      rcases Store.mem_values_insert hr with hr | hr
      · subst hr
        rfl
      · exact hR r hr
  | opFundProposal payload =>
    rcases fundProposal_state s payload with hs | ⟨p, hp, hs⟩ <;>
      · simp only [applyOp, hs]
        exact ⟨hR, hP⟩
  | opCreateMilestone freshId payload =>
    rcases createMilestone_state s freshId payload with hs | ⟨p, hp, hs⟩ <;>
      · simp only [applyOp, hs]
        exact ⟨hR, hP⟩
  | opVerifyMilestone payload =>
    rcases verifyMilestone_state s payload with hs | ⟨m, hm, hs⟩ <;>
      · simp only [applyOp, hs]
        exact ⟨hR, hP⟩
  | opSubmitProof freshId payload =>
    rcases submitProof_state s freshId payload with hs | ⟨m, hm, hs⟩
    · simp only [applyOp, hs]
      exact ⟨hR, hP⟩
    · simp only [applyOp, hs]
      refine ⟨hR, ?_⟩
      intro pf hpf
      rcases Store.mem_values_insert hpf with hpf | hpf
      · subst hpf
        rfl
      · exact hP pf hpf

/- Reviews of the points variant are likewise created with verified = false and
   never touched again. -/
theorem Points.submitReview_Reviews (s : Points.State) (caller freshId : String)
    (payload : SubmitReviewPayload) :
    (Points.submitReview s caller freshId payload).2.Reviews = s.Reviews ∨
    ∃ rv : Points.Review, rv.verified = false ∧
      (Points.submitReview s caller freshId payload).2.Reviews =
        Store.insert s.Reviews freshId rv := by
  unfold Points.submitReview
  cases hg : Store.get s.Proposals payload.proposal_id with
  | none => exact Or.inl rfl
  | some p =>
    by_cases hval : payload.score < 1 ∨ payload.score > 10 ∨ payload.stake_amount < 100
    · simp only [if_pos hval]
      exact Or.inl (by trivial)
    · simp only [if_neg hval]
      exact Or.inr ⟨_, rfl, rfl⟩

theorem Points.applyOp_Reviews (s : Points.State) (op : Points.Op) :
    (Points.applyOp s op).Reviews = s.Reviews ∨
    ∃ (freshId : String) (rv : Points.Review), rv.verified = false ∧
      (Points.applyOp s op).Reviews = Store.insert s.Reviews freshId rv := by
  cases op with
  | opInit => exact Or.inl rfl
  | opCreateProposal caller freshId timeline payload =>
    refine Or.inl ?_
    unfold Points.applyOp Points.createProposal
    by_cases hfields : payload.title = "" ∨ payload.description = "" ∨
        payload.methodology = "" ∨ payload.funding_target = 0
    · simp only [if_pos hfields]
    · simp only [if_neg hfields]
  | opSubmitReview caller freshId payload =>
    rcases Points.submitReview_Reviews s caller freshId payload with hs | ⟨rv, hrv, hs⟩
    · exact Or.inl hs
    · exact Or.inr ⟨freshId, rv, hrv, hs⟩

/-- C10: in every reachable state of the main canister, every stored review has
verified = false and every stored proof has status "pending"; and in every
reachable state of the points variant every stored review likewise has
verified = false — so the "verified" values of Review.verified and
ProofOfReproduction.status are unreachable through the operation surface. -/
theorem verified_values_unreachable :
    (∀ s : State, Reachable s →
      (∀ r ∈ Store.values s.reviews, r.verified = false) ∧
      (∀ pf ∈ Store.values s.proofs, pf.status = "pending")) ∧
    (∀ ps : Points.State, Points.Reachable ps →
      ∀ r ∈ Store.values ps.Reviews, r.verified = false) := by
  constructor
  · intro s h
    induction h with
    | init =>
      refine ⟨?_, ?_⟩ <;> intro x hx <;> simp [initState, Store.values] at hx
    | step s op hs ih => exact allUnverified_applyOp s op ih
  · intro ps h
    induction h with
    | init =>
      intro x hx
      simp [Points.initState, Store.values] at hx
    | step ps op hs ih =>
      rcases Points.applyOp_Reviews ps op with hrv | ⟨freshId, rv, hrv, heq⟩
      · rw [hrv]
        exact ih
      · rw [heq]
        intro r hr
        rcases Store.mem_values_insert hr with hr | hr
        · subst hr
          exact hrv
        · exact ih r hr

theorem psW_reachable : Points.Reachable psW :=
  Points.Reachable.step _ _ (Points.Reachable.step _ _
    (Points.Reachable.step _ _ Points.Reachable.init))

/-- Witness for C10: the five-operation reachable state of the main canister
(holding review v1 and proof f1) has only unverified reviews and pending proofs,
and the reachable points-variant state holding review v1 has only unverified
reviews. -/
theorem verified_values_unreachable_witness :
    ((∀ r ∈ Store.values reachW.reviews, r.verified = false) ∧
      (∀ pf ∈ Store.values reachW.proofs, pf.status = "pending")) ∧
    (∀ r ∈ Store.values psW.Reviews, r.verified = false) :=
  ⟨verified_values_unreachable.1 reachW reachW_reachable,
    verified_values_unreachable.2 psW psW_reachable⟩

/-- C6: in the points-tracking variant, submitReview on an existing proposal with
1 ≤ score ≤ 10 and stake_amount ≥ 100 returns a review whose points_earned is
exactly REVIEW_BASE (10) * score * REVIEW_QUALITY_MULTIPLIER (2), and the stored
reviewer profile's total_points grows by exactly that amount (from the profile's
previous total, zero for a fresh caller). -/
theorem submitReview_points_formula :
    ∀ (s : Points.State) (caller freshId : String) (payload : SubmitReviewPayload)
      (prop : Points.ResearchProposal),
      Store.get s.Proposals payload.proposal_id = some prop →
      1 ≤ payload.score → payload.score ≤ 10 → 100 ≤ payload.stake_amount →
      ∃ rv : Points.Review,
        (Points.submitReview s caller freshId payload).1 = .Ok rv ∧
        rv.points_earned =
          Points.REVIEW_BASE * payload.score * Points.REVIEW_QUALITY_MULTIPLIER ∧
        ∃ r' : Points.Researcher,
          Store.get (Points.submitReview s caller freshId payload).2.Researchers caller =
            some r' ∧
          r'.total_points = (Points.profileOrDefault s caller).total_points +
            Points.REVIEW_BASE * payload.score * Points.REVIEW_QUALITY_MULTIPLIER := by
  intro s caller freshId payload prop hg h1 h2 h3
  have hval : ¬ (payload.score < 1 ∨ payload.score > 10 ∨ payload.stake_amount < 100) := by
    omega
  unfold Points.submitReview
  rw [hg]
  simp only [if_neg hval]
  refine ⟨_, rfl, rfl, ?_⟩
  cases hb : Store.get s.Badges "review_master" with
  | none =>
    exact ⟨_, Store.get_insert_self _ _ _, rfl⟩
  | some b =>
    refine ⟨_, Store.get_insert_self _ _ _, ?_⟩
    by_cases hcond : b.points_threshold ≤
        (Points.profileOrDefault s caller).total_points +
          Points.REVIEW_BASE * payload.score * Points.REVIEW_QUALITY_MULTIPLIER ∧
        "review_master" ∉ (Points.profileOrDefault s caller).badges
    · simp only [if_pos hcond]
    · simp only [if_neg hcond]

/-- Witness for C6 at concrete inputs: reviewer B reviews proposal p1 with score 9
and stake 1000; the review earns 10 * 9 * 2 = 180 points and B's stored profile
holds exactly 180 points. -/
theorem submitReview_points_formula_witness :
    (∃ rv : Points.Review,
      (Points.submitReview ps2W "B" "v1" ⟨"p1", 9, "ok", 1000⟩).1 = .Ok rv ∧
      rv.points_earned = Points.REVIEW_BASE * 9 * Points.REVIEW_QUALITY_MULTIPLIER ∧
      ∃ r' : Points.Researcher,
        Store.get (Points.submitReview ps2W "B" "v1" ⟨"p1", 9, "ok", 1000⟩).2.Researchers "B" =
          some r' ∧
        r'.total_points = (Points.profileOrDefault ps2W "B").total_points +
          Points.REVIEW_BASE * 9 * Points.REVIEW_QUALITY_MULTIPLIER) ∧
    Points.REVIEW_BASE * 9 * Points.REVIEW_QUALITY_MULTIPLIER = 180 ∧
    (Points.profileOrDefault ps2W "B").total_points = 0 :=
  ⟨submitReview_points_formula ps2W "B" "v1" ⟨"p1", 9, "ok", 1000⟩
      ⟨"p1", "A", "T", "D", "M", [], 1000, 0, "draft", [], "t0", []⟩
      (by decide) (by decide) (by decide) (by decide),
    by decide, by decide⟩

theorem Points.profileOrDefault_of_get (s : Points.State) (c : String)
    (r : Points.Researcher) (h : Store.get s.Researchers c = some r) :
    Points.profileOrDefault s c = r := by
  unfold Points.profileOrDefault
  rw [h]

theorem Points.profileOrDefault_of_none (s : Points.State) (c : String)
    (h : Store.get s.Researchers c = none) :
    Points.profileOrDefault s c = ⟨c, 0, 0, [], [], []⟩ := by
  unfold Points.profileOrDefault
  rw [h]

theorem Points.createProposalPoints_state (s : Points.State) (caller freshId timeline : String)
    (payload : CreateProposalPayload) :
    (Points.createProposal s caller freshId timeline payload).2 = s ∨
    ∃ q : Points.ResearchProposal,
      (Points.createProposal s caller freshId timeline payload).2 =
        { s with
          Researchers := Store.insert s.Researchers caller (Points.creatorUpdate s caller freshId)
          Proposals := Store.insert s.Proposals freshId q } := by
  unfold Points.createProposal
  by_cases hfields : payload.title = "" ∨ payload.description = "" ∨
      payload.methodology = "" ∨ payload.funding_target = 0
  · simp only [if_pos hfields]
    exact Or.inl (by trivial)
  · simp only [if_neg hfields]
    exact Or.inr ⟨_, rfl⟩

theorem Points.submitReviewPoints_state (s : Points.State) (caller freshId : String)
    (payload : SubmitReviewPayload) :
    (Points.submitReview s caller freshId payload).2 = s ∨
    ∃ p : Points.ResearchProposal, Store.get s.Proposals payload.proposal_id = some p ∧
      (Points.submitReview s caller freshId payload).2 =
        { s with
          Reviews := Store.insert s.Reviews freshId
            ⟨freshId, caller, payload.score, payload.comments, payload.stake_amount, false,
              Points.REVIEW_BASE * payload.score * Points.REVIEW_QUALITY_MULTIPLIER⟩
          Researchers := Store.insert s.Researchers caller
            (Points.reviewerUpdate s caller freshId payload.score)
          Proposals := Store.insert s.Proposals payload.proposal_id
            { p with
              reviews := p.reviews ++ [freshId]
              contributors_points := p.contributors_points ++
                [⟨caller, Points.REVIEW_BASE * payload.score * Points.REVIEW_QUALITY_MULTIPLIER⟩] } } := by
  unfold Points.submitReview
  cases hg : Store.get s.Proposals payload.proposal_id with
  | none => exact Or.inl rfl
  | some p =>
    by_cases hval : payload.score < 1 ∨ payload.score > 10 ∨ payload.stake_amount < 100
    · simp only [if_pos hval]
      exact Or.inl (by trivial)
    · simp only [if_neg hval]
      exact Or.inr ⟨p, rfl, rfl⟩

theorem Points.badgeInv_applyOp (ps : Points.State) (op : Points.Op)
    (h : Points.badgeInv ps) : Points.badgeInv (Points.applyOp ps op) := by
  obtain ⟨hBadge, hRes⟩ := h
  cases op with
  | opInit =>
    refine ⟨Or.inr ?_, hRes⟩
    simp only [Points.applyOp, Points.init, Points.DEFAULT_BADGES, List.foldl]
    exact Store.get_insert_self _ _ _
  | opCreateProposal caller freshId timeline payload =>
    rcases Points.createProposalPoints_state ps caller freshId timeline payload with hs | ⟨q, hs⟩
    · simp only [Points.applyOp, hs]
      exact ⟨hBadge, hRes⟩
    · simp only [Points.applyOp, hs]
      refine ⟨hBadge, ?_⟩
      intro r hr
      rcases Store.mem_values_insert hr with hr | hr
      · subst hr
        have hbase : ("research_starter" ∈ (Points.profileOrDefault ps caller).badges →
              20 ≤ (Points.profileOrDefault ps caller).total_points) ∧
            ("review_master" ∈ (Points.profileOrDefault ps caller).badges →
              200 ≤ (Points.profileOrDefault ps caller).total_points) ∧
            "funding_champion" ∉ (Points.profileOrDefault ps caller).badges := by
          cases hg : Store.get ps.Researchers caller with
          | none =>
            rw [Points.profileOrDefault_of_none ps caller hg]
            refine ⟨?_, ?_, ?_⟩ <;> simp
          | some r0 =>
            rw [Points.profileOrDefault_of_get ps caller r0 hg]
            exact hRes r0 (Store.mem_values_of_get hg)
        unfold Points.creatorUpdate
        by_cases hin : "research_starter" ∈ (Points.profileOrDefault ps caller).badges
        · simp only [if_pos hin]
          refine ⟨fun _ => ?_, fun hb => ?_, hbase.2.2⟩
          · simp only [Points.PROPOSAL_CREATION]
            omega
          · exact Nat.le_add_right_of_le (hbase.2.1 hb)
        · simp only [if_neg hin]
          refine ⟨fun _ => ?_, fun hb => ?_, ?_⟩
          · simp only [Points.PROPOSAL_CREATION]
            omega
          · simp only [List.mem_append, List.mem_singleton] at hb
            rcases hb with hb | hb
            · exact Nat.le_add_right_of_le (hbase.2.1 hb)
            · exact absurd hb (by decide)
          · intro hb
            simp only [List.mem_append, List.mem_singleton] at hb
            rcases hb with hb | hb
            · exact hbase.2.2 hb
            · exact absurd hb (by decide)
      · exact hRes r hr
  | opSubmitReview caller freshId payload =>
    rcases Points.submitReviewPoints_state ps caller freshId payload with hs | ⟨p, hp, hs⟩
    · simp only [Points.applyOp, hs]
      exact ⟨hBadge, hRes⟩
    · simp only [Points.applyOp, hs]
      refine ⟨hBadge, ?_⟩
      intro r hr
      rcases Store.mem_values_insert hr with hr | hr
      · subst hr
        have hbase : ("research_starter" ∈ (Points.profileOrDefault ps caller).badges →
              20 ≤ (Points.profileOrDefault ps caller).total_points) ∧
            ("review_master" ∈ (Points.profileOrDefault ps caller).badges →
              200 ≤ (Points.profileOrDefault ps caller).total_points) ∧
            "funding_champion" ∉ (Points.profileOrDefault ps caller).badges := by
          cases hg : Store.get ps.Researchers caller with
          | none =>
            rw [Points.profileOrDefault_of_none ps caller hg]
            refine ⟨?_, ?_, ?_⟩ <;> simp
          | some r0 =>
            rw [Points.profileOrDefault_of_get ps caller r0 hg]
            exact hRes r0 (Store.mem_values_of_get hg)
        unfold Points.reviewerUpdate
        cases hb : Store.get ps.Badges "review_master" with
        | none =>
          refine ⟨fun hin => Nat.le_add_right_of_le (hbase.1 hin),
            fun hin => Nat.le_add_right_of_le (hbase.2.1 hin), hbase.2.2⟩
        | some b =>
          have hb200 : b = Points.reviewMasterBadge := by
            rcases hBadge with hB | hB
            · exact absurd (hB.symm.trans hb) (by simp)
            · have heq := hB.symm.trans hb
              injection heq with heq
              exact heq.symm
          by_cases hcond : b.points_threshold ≤
              (Points.profileOrDefault ps caller).total_points +
                Points.REVIEW_BASE * payload.score * Points.REVIEW_QUALITY_MULTIPLIER ∧
              "review_master" ∉ (Points.profileOrDefault ps caller).badges
          · simp only [if_pos hcond]
            refine ⟨fun hin => ?_, fun hin => ?_, fun hin => ?_⟩
            · simp only [List.mem_append, List.mem_singleton] at hin
              rcases hin with hin | hin
              · exact Nat.le_add_right_of_le (hbase.1 hin)
              · exact absurd hin (by decide)
            · have := hcond.1
              rw [hb200] at this
              exact this
            · simp only [List.mem_append, List.mem_singleton] at hin
              rcases hin with hin | hin
              · exact hbase.2.2 hin
              · exact absurd hin (by decide)
          · simp only [if_neg hcond]
            exact ⟨fun hin => Nat.le_add_right_of_le (hbase.1 hin),
              fun hin => Nat.le_add_right_of_le (hbase.2.1 hin), hbase.2.2⟩
      · exact hRes r hr

theorem Points.badgeInv_reachable (ps : Points.State) (h : Points.Reachable ps) :
    Points.badgeInv ps := by
  induction h with
  | init =>
    refine ⟨Or.inl rfl, ?_⟩
    intro r hr
    simp [Points.initState, Store.values] at hr
  | step ps op hs ih => exact Points.badgeInv_applyOp ps op ih

/-- C3 counterexample: in the reachable points-variant state where researcher A
created proposal p1 (after badge seeding) and researcher B reviewed it with score
1, B's profile holds total_points = 20, which reaches the research_starter badge's
catalog threshold of 20, yet B's badge set is empty — refuting the claimed "badge
in the set iff total_points has reached the threshold". -/
theorem badge_iff_counterexample :
    Points.Reachable psW ∧
    Store.get psW.Badges "research_starter" =
      some ⟨"research_starter", "Research Starter", "Created first research proposal", 20⟩ ∧
    Store.get psW.Researchers "B" = some ⟨"B", 0, 20, [], ["v1"], []⟩ ∧
    (20 : Nat) ≤ 20 ∧
    "research_starter" ∉ ([] : List String) :=
  ⟨psW_reachable, by decide, by decide, by decide, by decide⟩

/-- C3 amended: badge membership is one-way and permanent, but the converse of the
claimed equivalence fails. In the points variant: (i) every operation maps a stored
researcher profile to a stored profile whose badge set contains all previous badges
and whose total_points has not decreased, so badges are never removed and points
never decrease; (ii) in every reachable state, a held research_starter badge
implies total_points ≥ 20, a held review_master badge implies total_points ≥ 200,
and funding_champion is never held by anyone — the implication from reaching a
threshold to holding the badge does not hold (see the counterexample). -/
theorem badge_award_amended :
    (∀ (ps : Points.State) (op : Points.Op) (c : String) (r : Points.Researcher),
      Store.get ps.Researchers c = some r →
      ∃ r' : Points.Researcher,
        Store.get (Points.applyOp ps op).Researchers c = some r' ∧
        (∀ b ∈ r.badges, b ∈ r'.badges) ∧ r.total_points ≤ r'.total_points) ∧
    (∀ ps : Points.State, Points.Reachable ps →
      ∀ r ∈ Store.values ps.Researchers,
        ("research_starter" ∈ r.badges → 20 ≤ r.total_points) ∧
        ("review_master" ∈ r.badges → 200 ≤ r.total_points) ∧
        "funding_champion" ∉ r.badges) := by
  constructor
  · intro ps op c r hr
    cases op with
    | opInit => exact ⟨r, hr, fun b hb => hb, le_refl _⟩
    | opCreateProposal caller freshId timeline payload =>
      rcases Points.createProposalPoints_state ps caller freshId timeline payload with hs | ⟨q, hs⟩
      · simp only [Points.applyOp, hs]
        exact ⟨r, hr, fun b hb => hb, le_refl _⟩
      · simp only [Points.applyOp, hs]
        by_cases hc : caller = c
        · subst hc
          refine ⟨Points.creatorUpdate ps caller freshId, Store.get_insert_self _ _ _, ?_, ?_⟩
          · intro b hb
            unfold Points.creatorUpdate
            rw [Points.profileOrDefault_of_get ps caller r hr]
            by_cases hin : "research_starter" ∈ r.badges
            · simp only [if_pos hin]
              exact hb
            · simp only [if_neg hin]
              simp only [List.mem_append]
              exact Or.inl hb
          · unfold Points.creatorUpdate
            rw [Points.profileOrDefault_of_get ps caller r hr]
            by_cases hin : "research_starter" ∈ r.badges
            · simp only [if_pos hin]
              exact Nat.le_add_right _ _
            · simp only [if_neg hin]
              exact Nat.le_add_right _ _
        · refine ⟨r, ?_, fun b hb => hb, le_refl _⟩
          rw [Store.get_insert]
          simp [hc, hr]
    | opSubmitReview caller freshId payload =>
      rcases Points.submitReviewPoints_state ps caller freshId payload with hs | ⟨p, hp, hs⟩
      · simp only [Points.applyOp, hs]
        exact ⟨r, hr, fun b hb => hb, le_refl _⟩
      · simp only [Points.applyOp, hs]
        by_cases hc : caller = c
        · subst hc
          refine ⟨Points.reviewerUpdate ps caller freshId payload.score,
            Store.get_insert_self _ _ _, ?_, ?_⟩
          · intro b hb
            unfold Points.reviewerUpdate
            rw [Points.profileOrDefault_of_get ps caller r hr]
            cases hbg : Store.get ps.Badges "review_master" with
            | none => exact hb
            | some bd =>
              by_cases hcond : bd.points_threshold ≤
                  r.total_points + Points.REVIEW_BASE * payload.score *
                    Points.REVIEW_QUALITY_MULTIPLIER ∧
                  "review_master" ∉ r.badges
              · simp only [if_pos hcond]
                simp only [List.mem_append]
                exact Or.inl hb
              · simp only [if_neg hcond]
                exact hb
          · unfold Points.reviewerUpdate
            rw [Points.profileOrDefault_of_get ps caller r hr]
            cases hbg : Store.get ps.Badges "review_master" with
            | none => exact Nat.le_add_right _ _
            | some bd =>
              by_cases hcond : bd.points_threshold ≤
                  r.total_points + Points.REVIEW_BASE * payload.score *
                    Points.REVIEW_QUALITY_MULTIPLIER ∧
                  "review_master" ∉ r.badges
              · simp only [if_pos hcond]
                exact Nat.le_add_right _ _
              · simp only [if_neg hcond]
                exact Nat.le_add_right _ _
        · refine ⟨r, ?_, fun b hb => hb, le_refl _⟩
          rw [Store.get_insert]
          simp [hc, hr]
  · intro ps h
    exact (Points.badgeInv_reachable ps h).2

/-- Witness for C3 amended: after researcher A's proposal creation in psW, a
further review by A keeps A's research_starter badge and does not decrease A's 20
points; and in the reachable state psW the one-way facts hold for every stored
profile, in particular A holds research_starter with 20 ≤ 20 points and neither A
nor B holds funding_champion. -/
theorem badge_award_amended_witness :
    (∃ r' : Points.Researcher,
      Store.get (Points.applyOp psW
        (Points.Op.opSubmitReview "A" "v2" ⟨"p1", 10, "good", 100⟩)).Researchers "A" =
        some r' ∧
      (∀ b ∈ (⟨"A", 0, 20, ["research_starter"], ["p1"], []⟩ : Points.Researcher).badges,
        b ∈ r'.badges) ∧
      (⟨"A", 0, 20, ["research_starter"], ["p1"], []⟩ : Points.Researcher).total_points ≤
        r'.total_points) ∧
    (∀ r ∈ Store.values psW.Researchers,
      ("research_starter" ∈ r.badges → 20 ≤ r.total_points) ∧
      ("review_master" ∈ r.badges → 200 ≤ r.total_points) ∧
      "funding_champion" ∉ r.badges) :=
  ⟨badge_award_amended.1 psW (Points.Op.opSubmitReview "A" "v2" ⟨"p1", 10, "good", 100⟩)
      "A" ⟨"A", 0, 20, ["research_starter"], ["p1"], []⟩ (by decide),
    badge_award_amended.2 psW psW_reachable⟩

theorem s1W_reachable : Reachable s1W :=
  Reachable.step initState (Op.opCreateResearcher "o1" "r1" rp1W) Reachable.init

/-- C5 counterexample: researcher r1 is stored with normalized email
"alice@x.com"; a second payload whose email "Alice@x.com" differs only in letter
case passes every field validation and normalizes to the stored email, yet
createResearcher accepts it and inserts researcher r2 — the duplicate check
compares the raw payload email against stored normalized emails, so it does not
fire. -/
theorem duplicate_email_case_counterexample :
    Reachable s1W ∧
    Store.get s1W.researchers "r1" =
      some ⟨"r1", "Alice A", "1 Main Street", "alice@x.com", "1234567890", "o1",
        0, 0, [], [], []⟩ ∧
    ((jsTrim rp2W.name).length ≥ 2 ∧ (jsTrim rp2W.address).length ≥ 5 ∧
      emailRegexTest rp2W.email = true ∧ phoneRegexTest rp2W.phone = true) ∧
    jsToLower (jsTrim rp2W.email) = "alice@x.com" ∧
    (createResearcher s1W "o2" "r2" rp2W).1 =
      .Ok ⟨"r2", "Alice B", "2 Main Street", "alice@x.com", "9876543210", "o2",
        0, 0, [], [], []⟩ ∧
    Store.get (createResearcher s1W "o2" "r2" rp2W).2.researchers "r2" =
      some ⟨"r2", "Alice B", "2 Main Street", "alice@x.com", "9876543210", "o2",
        0, 0, [], [], []⟩ :=
  ⟨s1W_reachable, by decide, by decide, by decide, by decide, by decide⟩

/-- C5 amended: the duplicate scan compares the raw payload email and phone with
the stored (normalized) values. For every payload passing the field validations
whose raw email or raw phone equals a stored researcher's email or phone, the call
returns InvalidPayload and the state is unchanged. (Since validated phones are
exactly 10-15 digits, phone duplicates are always caught; validated emails carry no
whitespace but may differ from a stored email in letter case, and such case
variants are accepted — see the counterexample.) -/
theorem createResearcher_duplicate_amended :
    ∀ (s : State) (caller freshId : String) (payload : researcherPayload),
      ¬ (jsTrim payload.name).length < 2 →
      ¬ (jsTrim payload.address).length < 5 →
      emailRegexTest payload.email = true →
      phoneRegexTest payload.phone = true →
      (Store.values s.researchers).any
        (fun r => r.email == payload.email || r.phone == payload.phone) = true →
      createResearcher s caller freshId payload =
        (.Err (.InvalidPayload "Researcher with this email or phone already exists."), s) := by
  intro s caller freshId payload h1 h2 h3 h4 h5
  unfold createResearcher
  rw [if_neg h1, if_neg h2]
  simp [h3, h4, h5]

/-- Witness for C5 amended: a third payload repeating the stored email
"alice@x.com" verbatim is rejected with InvalidPayload and the state is unchanged. -/
theorem createResearcher_duplicate_amended_witness :
    createResearcher s1W "o3" "r3" rp3W =
      (.Err (.InvalidPayload "Researcher with this email or phone already exists."), s1W) :=
  createResearcher_duplicate_amended s1W "o3" "r3" rp3W (by decide) (by decide)
    (by decide) (by decide) (by decide)

/-- C9 counterexample: an otherwise-valid payload whose phone "123-456-7890"
contains exactly 10 digits after removing the separators is rejected with
InvalidPayload "Phone number must be 10-15 digits." — the 10-15-digit regex runs on
the raw input before any stripping, so separators are never accepted. -/
theorem phone_separator_counterexample :
    createResearcher initState "o" "r1"
        ⟨"Bob Smith", "12 Main Street", "bob@x.com", "123-456-7890"⟩ =
      (.Err (.InvalidPayload "Phone number must be 10-15 digits."), initState) ∧
    ("123-456-7890".toList.filter Char.isDigit).length = 10 ∧
    emailRegexTest "bob@x.com" = true :=
  ⟨by decide, by decide, by decide⟩

/-- C9 amended: createResearcher only accepts phones that are already exactly
10-15 digit characters (the regex tests the raw input), so the digit-stripping
before storage is a no-op: any payload passing the phone validation has a phone of
10-15 characters, all digits, and whenever the call succeeds the stored phone
equals the input phone verbatim. -/
theorem createResearcher_phone_amended :
    ∀ (s : State) (caller freshId : String) (payload : researcherPayload),
      phoneRegexTest payload.phone = true →
      (10 ≤ payload.phone.length ∧ payload.phone.length ≤ 15 ∧
        payload.phone.toList.all Char.isDigit = true) ∧
      (∀ r : Researcher, (createResearcher s caller freshId payload).1 = .Ok r →
        r.phone = payload.phone) := by
  intro s caller freshId payload hphone
  have hparts : 10 ≤ payload.phone.length ∧ payload.phone.length ≤ 15 ∧
      payload.phone.toList.all Char.isDigit = true := by
    unfold phoneRegexTest at hphone
    simp only [Bool.and_eq_true, decide_eq_true_eq] at hphone
    exact ⟨hphone.1.1, hphone.1.2, hphone.2⟩
  refine ⟨hparts, ?_⟩
  intro r hr
  unfold createResearcher at hr
  by_cases h1 : (jsTrim payload.name).length < 2
  · rw [if_pos h1] at hr
    simp at hr
  rw [if_neg h1] at hr
  by_cases h2 : (jsTrim payload.address).length < 5
  · rw [if_pos h2] at hr
    simp at hr
  rw [if_neg h2] at hr
  by_cases h3 : emailRegexTest payload.email = true
  · rw [if_neg (by simp [h3])] at hr
    rw [if_neg (by simp [hphone])] at hr
    by_cases h5 : (Store.values s.researchers).any
        (fun x => x.email == payload.email || x.phone == payload.phone) = true
    · rw [if_pos (by simp [h5])] at hr
      simp at hr
    · rw [if_neg (by simp [h5])] at hr
      simp only [Result.Ok.injEq] at hr
      subst hr
      show String.mk (payload.phone.toList.filter Char.isDigit) = payload.phone
      have : payload.phone.toList.filter Char.isDigit = payload.phone.toList :=
        List.filter_eq_self.mpr (by simpa [List.all_eq_true] using hparts.2.2)
      rw [this]
      rfl
  · rw [if_pos (by simpa using h3)] at hr
    simp at hr

/-- Witness for C9 amended: the all-digit phone "5551234567" passes validation with
10 digit characters, and the successful registration stores it verbatim. -/
theorem createResearcher_phone_amended_witness :
    ((10 ≤ ("5551234567" : String).length ∧ ("5551234567" : String).length ≤ 15 ∧
      ("5551234567" : String).toList.all Char.isDigit = true) ∧
      (∀ r : Researcher,
        (createResearcher initState "o" "rx"
          ⟨"Bob Smith", "12 Main Street", "bob@x.com", "5551234567"⟩).1 = .Ok r →
        r.phone = "5551234567")) ∧
    (createResearcher initState "o" "rx"
        ⟨"Bob Smith", "12 Main Street", "bob@x.com", "5551234567"⟩).1 =
      .Ok ⟨"rx", "Bob Smith", "12 Main Street", "bob@x.com", "5551234567", "o",
        0, 0, [], [], []⟩ :=
  ⟨createResearcher_phone_amended initState "o" "rx"
      ⟨"Bob Smith", "12 Main Street", "bob@x.com", "5551234567"⟩ (by decide),
    by decide⟩

/-- C8 (code bug evaluated at the failing input): for the whitespace-only id " ",
idPayloadValid throws the value InvalidPayload "Please provide a valid ID as
text." — showing the intended error kind — but each handler's catch-all converts
the thrown object into Error "Error occured undefined", so getResearcherById,
fundProposal, verifyMilestone and submitProof all answer with kind Error, not
InvalidPayload; and the second source variant's getResearcherById performs no ID
check at all, answering NotFound. -/
theorem blank_id_yields_error_not_invalidPayload :
    idPayloadValid " " =
      some (Message.InvalidPayload "Please provide a valid ID as text.") ∧
    getResearcherById s1W " " = .Err (Message.Error "Error occured undefined") ∧
    fundProposal sW ⟨" ", 500⟩ = (.Err (Message.Error "Error occured undefined"), sW) ∧
    verifyMilestone smW ⟨"p1", " "⟩ =
      (.Err (Message.Error "Error occured undefined"), smW) ∧
    submitProof smW "f9" ⟨" ", "mh", "rh"⟩ =
      (.Err (Message.Error "Error occured undefined"), smW) ∧
    getResearcherByIdV2 s1W " " =
      .Err (Message.NotFound ("Researcher with id=" ++ " " ++ " not found.")) :=
  ⟨by decide, by decide, by decide, by decide, by decide, by decide⟩

end ResearchChain
